import Mathlib

/-!
Shallow embedding of the session / rate-limiting core of the
Trade Opportunities API (files `app/core/rate_limit.py`,
`app/core/session.py`, `app/config.py` and the admission-control prefix of
`app/api/v1/endpoints/analysis.py`), together with proofs of the
specification's claims about it.

Modelling conventions:
- Python `int` becomes `Int`.
- Clock readings (`time.monotonic()` floats, `datetime` wall-clock
  differences in seconds) become exact rationals `ℚ`; `elapsed // refill`
  on floats becomes the rational floor `⌊elapsed / refill⌋`.
- In-place mutation of objects becomes explicit state passing: every
  mutating method returns its result together with the updated state.
- The session dictionary `Dict[str, SessionInfo]` becomes an association
  list `List (String × SessionInfo)` with Python-dict operations
  (membership lookup, insert-at-end for a fresh key, key removal, length).
-/

set_option autoImplicit false

namespace TradeAPI

/-- The three-way admission verdict of the `analyze_sector` handler:
proceed, HTTP 401 (session expired), or HTTP 429 (rate limited). -/
inductive Decision where
  | Allowed
  | SessionExpired
  | RateLimited
  deriving DecidableEq, Repr

/-- State of a `RateLimiter` (`app/core/rate_limit.py`): a token bucket with
its configured capacity and refill interval, the current token count, and
the monotonic timestamp of the last refill. -/
structure RateLimiter where
  capacity : Int
  refill_seconds : Int
  tokens : Int
  last_refill : ℚ
  deriving DecidableEq, Repr

/-- Embeds `RateLimiter.__init__`: tokens start at `capacity` and
`last_refill` at the current monotonic time. No argument validation is
performed by the source constructor. -/
def RateLimiter.init (capacity refill_seconds : Int) (now : ℚ) : RateLimiter :=
  { capacity := capacity, refill_seconds := refill_seconds,
    tokens := capacity, last_refill := now }

/-- Embeds `RateLimiter.allow_request` called at monotonic time `now`:
if at least one full refill interval has elapsed, add `capacity` tokens per
whole elapsed interval (capped at `capacity`) and advance `last_refill` to
`now`; then consume one token if any is available. Returns the verdict and
the updated bucket. (When `refill_seconds = 0` the Python code raises
`ZeroDivisionError` in the refill branch; all theorems that can reach that
branch assume `0 < refill_seconds`.) -/
def RateLimiter.allow_request (rl : RateLimiter) (now : ℚ) : Bool × RateLimiter :=
  let elapsed := now - rl.last_refill
  let rl1 :=
    if (rl.refill_seconds : ℚ) ≤ elapsed then
      let steps : Int := ⌊elapsed / (rl.refill_seconds : ℚ)⌋
      let refill_amount := steps * rl.capacity
      { rl with tokens := min rl.capacity (rl.tokens + refill_amount),
                last_refill := now }
    else rl
  if 0 < rl1.tokens then (true, { rl1 with tokens := rl1.tokens - 1 })
  else (false, rl1)

/-- Modelled from the spec: the fail-fast bucket construction the
specification's error-handling section asks for ("Malformed configuration
(zero or negative capacity/interval) ... rejected eagerly at startup"):
refuse a non-positive capacity or refill interval instead of building a
bucket. The source repository has no such check anywhere (neither
`RateLimiter.__init__` nor `Settings.__init__` validates these fields);
this definition exists only to compare the spec's words with the code. -/
def RateLimiter.init_checked (capacity refill_seconds : Int) (now : ℚ) :
    Option RateLimiter :=
  if 0 < capacity ∧ 0 < refill_seconds then
    some (RateLimiter.init capacity refill_seconds now)
  else none

/-- Embeds the `available_tokens` property. -/
def RateLimiter.available_tokens (rl : RateLimiter) : Int :=
  rl.tokens

/-- A sequence of `allow_request` calls at the given monotonic times,
returning the list of verdicts and the final bucket state. -/
def RateLimiter.consumeSeq (rl : RateLimiter) : List ℚ → List Bool × RateLimiter
  | [] => ([], rl)
  | t :: ts =>
      let r := rl.allow_request t
      let rest := r.2.consumeSeq ts
      (r.1 :: rest.1, rest.2)

/-- The configuration fields of `Settings` (`app/config.py`) that the session
core reads. In the source these are fixed class attributes:
`ACCESS_TOKEN_EXPIRE_MINUTES = 60`, `RATE_LIMIT_CAPACITY = 5`,
`RATE_LIMIT_REFILL_SECONDS = 60`. -/
structure Settings where
  SECRET_KEY : String
  ACCESS_TOKEN_EXPIRE_MINUTES : Int
  RATE_LIMIT_CAPACITY : Int
  RATE_LIMIT_REFILL_SECONDS : Int
  deriving DecidableEq, Repr

/-- Embeds `Settings.__init__`: the only validation the source constructor
performs is that `SECRET_KEY` is non-empty; the rate-limit fields are the
hardcoded class constants and are never checked. -/
def Settings.init (secret_key : String) : Except String Settings :=
  if secret_key = "" then
    Except.error "SECRET_KEY environment variable is required"
  else
    Except.ok { SECRET_KEY := secret_key, ACCESS_TOKEN_EXPIRE_MINUTES := 60,
                RATE_LIMIT_CAPACITY := 5, RATE_LIMIT_REFILL_SECONDS := 60 }

/-- The concrete settings value the running service uses (any non-empty
`SECRET_KEY`; the session core never reads it). -/
def defaultSettings : Settings :=
  { SECRET_KEY := "k", ACCESS_TOKEN_EXPIRE_MINUTES := 60,
    RATE_LIMIT_CAPACITY := 5, RATE_LIMIT_REFILL_SECONDS := 60 }

/-- State of a `SessionInfo` (`app/core/session.py`): identity, wall-clock
creation time, TTL in seconds, the owned rate limiter and the count of
allowed requests. -/
structure SessionInfo where
  client_id : String
  created_at : ℚ
  expires_in : Int
  rate_limiter : RateLimiter
  usage_count : Int
  deriving DecidableEq, Repr

/-- Embeds `SessionInfo.__init__` at wall-clock time `wallNow` and monotonic
time `monoNow`: `created_at` is the current wall-clock instant, `expires_in`
is `ACCESS_TOKEN_EXPIRE_MINUTES * 60`, the bucket is freshly constructed
from the configured capacity and refill interval, `usage_count` is 0. -/
def SessionInfo.init (settings : Settings) (client_id : String)
    (wallNow monoNow : ℚ) : SessionInfo :=
  { client_id := client_id, created_at := wallNow,
    expires_in := settings.ACCESS_TOKEN_EXPIRE_MINUTES * 60,
    rate_limiter := RateLimiter.init settings.RATE_LIMIT_CAPACITY
      settings.RATE_LIMIT_REFILL_SECONDS monoNow,
    usage_count := 0 }

/-- Embeds `SessionInfo.is_expired` at wall-clock time `now`: true iff the
session age strictly exceeds `expires_in` seconds. A pure query. -/
def SessionInfo.is_expired (s : SessionInfo) (now : ℚ) : Bool :=
  decide ((s.expires_in : ℚ) < now - s.created_at)

/-- Embeds `SessionInfo.allow_request` at monotonic time `now`: delegate to
the bucket; if allowed, increment `usage_count`. -/
def SessionInfo.allow_request (s : SessionInfo) (now : ℚ) : Bool × SessionInfo :=
  let r := s.rate_limiter.allow_request now
  if r.1 then
    (true, { s with rate_limiter := r.2, usage_count := s.usage_count + 1 })
  else
    (false, { s with rate_limiter := r.2 })

/-- A sequence of `SessionInfo.allow_request` calls at the given monotonic
times, returning the verdicts and the final session state. -/
def SessionInfo.allowSeq (s : SessionInfo) : List ℚ → List Bool × SessionInfo
  | [] => ([], s)
  | t :: ts =>
      let r := s.allow_request t
      let rest := r.2.allowSeq ts
      (r.1 :: rest.1, rest.2)

/-- State of the `SessionManager` (`app/core/session.py`): the dictionary
from client id to session, as an association list with unique keys. -/
structure SessionManager where
  _sessions : List (String × SessionInfo)
  deriving DecidableEq, Repr

/-- The empty manager, as built by `SessionManager.__init__`. -/
def SessionManager.init : SessionManager := ⟨[]⟩

/-- Embeds `SessionManager.get_session`: return the existing session for
`client_id`, or create one (at the given clock readings) and insert it. -/
def SessionManager.get_session (settings : Settings) (mgr : SessionManager)
    (client_id : String) (wallNow monoNow : ℚ) : SessionInfo × SessionManager :=
  match List.lookup client_id mgr._sessions with
  | some s => (s, mgr)
  | none =>
      let s := SessionInfo.init settings client_id wallNow monoNow
      (s, ⟨mgr._sessions ++ [(client_id, s)]⟩)

/-- Embeds `SessionManager.remove_session`: `dict.pop(client_id, None)`,
which deletes the key if present and silently does nothing otherwise. -/
def SessionManager.remove_session (mgr : SessionManager)
    (client_id : String) : SessionManager :=
  ⟨mgr._sessions.filter (fun p => !(p.1 == client_id))⟩

/-- Embeds the `active_sessions` property: the number of stored sessions. -/
def SessionManager.active_sessions (mgr : SessionManager) : Int :=
  mgr._sessions.length

/-- Embeds `SessionManager.cleanup_expired_sessions` at wall-clock `now`:
collect the ids of expired sessions, remove each, return how many. -/
def SessionManager.cleanup_expired_sessions (mgr : SessionManager)
    (now : ℚ) : Int × SessionManager :=
  let expired := (mgr._sessions.filter (fun p => p.2.is_expired now)).map
    (fun p => p.1)
  (expired.length, expired.foldl (fun m cid => m.remove_session cid) mgr)

/-- Writing back a mutated session object: in Python
`session.allow_request()` mutates the `SessionInfo` held in the dictionary
in place; in the state-passing embedding the entry for `client_id` is
replaced by the updated session. -/
def SessionManager.set_session (mgr : SessionManager) (client_id : String)
    (s : SessionInfo) : SessionManager :=
  ⟨mgr._sessions.map (fun p => if p.1 == client_id then (p.1, s) else p)⟩

/-- Embeds the admission-control prefix of `analyze_sector`
(`app/api/v1/endpoints/analysis.py`, lines 54-70): get or create the
session for the authenticated identity; if it is expired, remove it and
answer 401 (`SessionExpired`); if its rate limiter denies, answer 429
(`RateLimited`); otherwise proceed (`Allowed`). `wallNow` is the wall-clock
reading used for expiry, `monoNow` the monotonic reading used by the
bucket. -/
def analyze_sector (settings : Settings) (mgr : SessionManager) (identity : String)
    (wallNow monoNow : ℚ) : Decision × SessionManager :=
  let gs := SessionManager.get_session settings mgr identity wallNow monoNow
  if gs.1.is_expired wallNow then
    (Decision.SessionExpired, gs.2.remove_session identity)
  else
    let ar := gs.1.allow_request monoNow
    let mgr2 := gs.2.set_session identity ar.2
    if ar.1 then (Decision.Allowed, mgr2) else (Decision.RateLimited, mgr2)

/-- A sequence of `analyze_sector` calls for one identity at the given
(wall-clock, monotonic) time pairs. -/
def analyzeSeq (settings : Settings) (mgr : SessionManager) (identity : String) :
    List (ℚ × ℚ) → List Decision × SessionManager
  | [] => ([], mgr)
  | t :: ts =>
      let r := analyze_sector settings mgr identity t.1 t.2
      let rest := analyzeSeq settings r.2 identity ts
      (r.1 :: rest.1, rest.2)

/-! Helper lemmas shared by several claims. -/

/-- One `SessionInfo.allow_request` call adds 1 to `usage_count` when it
answers true and leaves it unchanged when it answers false. -/
theorem allow_request_usage (s : SessionInfo) (t : ℚ) :
    (s.allow_request t).2.usage_count =
      s.usage_count + (if (s.allow_request t).1 then 1 else 0) := by
  by_cases h : (s.rate_limiter.allow_request t).1 <;>
    simp [SessionInfo.allow_request, h]

/-- A key filtered out of an association list can no longer be looked up. -/
theorem lookup_filter_self {β : Type} (l : List (String × β)) (i : String) :
    List.lookup i (l.filter (fun p => !(p.1 == i))) = none := by
  induction l with
  | nil => rfl
  | cons p l ih =>
    by_cases hp : p.1 = i
    · have hb : (p.1 == i) = true := beq_iff_eq.mpr hp
      simpa [List.filter_cons, hb] using ih
    · have hb : (p.1 == i) = false := beq_eq_false_iff_ne.mpr hp
      have hb2 : (i == p.1) = false := beq_eq_false_iff_ne.mpr (Ne.symm hp)
      simp only [List.filter_cons, hb, Bool.not_false, if_true]
      rw [List.lookup, hb2]
      exact ih

/-- Filtering a key out of an association list in which it does not occur
is the identity. -/
theorem filter_eq_of_lookup_none {β : Type} (l : List (String × β)) (i : String)
    (h : List.lookup i l = none) : l.filter (fun p => !(p.1 == i)) = l := by
  induction l with
  | nil => rfl
  | cons p l ih =>
    rw [List.lookup] at h
    by_cases hp : i = p.1
    · have hb : (i == p.1) = true := beq_iff_eq.mpr hp
      rw [hb] at h
      exact Option.noConfusion h
    · have hb : (i == p.1) = false := beq_eq_false_iff_ne.mpr hp
      have hb2 : (p.1 == i) = false := beq_eq_false_iff_ne.mpr (Ne.symm hp)
      rw [hb] at h
      simp only [List.filter_cons, hb2, Bool.not_false, if_true]
      rw [ih h]

example :
    ((RateLimiter.init 2 60 0).consumeSeq [0, 1, 2]).1 =
      [true, true, false] := by
  norm_num [RateLimiter.consumeSeq, RateLimiter.allow_request, RateLimiter.init]

example :
    (analyze_sector defaultSettings SessionManager.init "alice" 0 0).1 =
      Decision.Allowed := by
  norm_num [analyze_sector, SessionManager.get_session, SessionManager.init,
    SessionInfo.init, SessionInfo.is_expired, SessionInfo.allow_request,
    RateLimiter.allow_request, RateLimiter.init, defaultSettings]

/-- C4: `SessionInfo.is_expired` answers true exactly when the session age
`now - created_at` strictly exceeds `expires_in` seconds, and answers false
when the age equals `expires_in` exactly. The query is pure: in the
embedding it returns only a `Bool` and no updated state, mirroring that the
source method reads but never writes session fields. -/
theorem is_expired_iff_strictly_older (s : SessionInfo) (now : ℚ) :
    (s.is_expired now = true ↔ (s.expires_in : ℚ) < now - s.created_at) ∧
    (now - s.created_at = (s.expires_in : ℚ) → s.is_expired now = false) := by
  constructor
  · simp [SessionInfo.is_expired]
  · intro h
    simp [SessionInfo.is_expired, h]

/-- Witness for C4: a session with TTL 3600 queried exactly 3600 seconds
after creation is not yet expired. -/
theorem is_expired_iff_strictly_older_witness :
    SessionInfo.is_expired
      { client_id := "bob", created_at := 0, expires_in := 3600,
        rate_limiter := RateLimiter.init 5 60 0, usage_count := 0 }
      3600 = false :=
  (is_expired_iff_strictly_older _ 3600).2 (by norm_num)

/-- C5: `usage_count` counts exactly the allowed requests: it is 0 on a
fresh session, and after any sequence of `allow_request` calls it has grown
by exactly the number of calls that returned true — denied calls never
change it. -/
theorem usage_count_counts_allowed (settings : Settings) (cid : String)
    (wallNow monoNow : ℚ) (s : SessionInfo) (ts : List ℚ) :
    (SessionInfo.init settings cid wallNow monoNow).usage_count = 0 ∧
    (s.allowSeq ts).2.usage_count =
      s.usage_count + ((s.allowSeq ts).1.count true : Int) := by
  refine ⟨rfl, ?_⟩
  induction ts generalizing s with
  | nil => simp [SessionInfo.allowSeq]
  | cons t ts ih =>
    simp only [SessionInfo.allowSeq]
    rw [ih ((s.allow_request t).2), allow_request_usage]
    by_cases h : (s.allow_request t).1 <;>
      (simp [h, List.count_cons]; try omega)

/-- C8: `SessionManager.remove_session` is idempotent and total: removing
an identity twice equals removing it once, and removing an identity that
has no session leaves the directory exactly as it was (no error is
possible; the source uses `dict.pop(client_id, None)`). -/
theorem remove_session_idempotent (mgr : SessionManager) (i : String) :
    (mgr.remove_session i).remove_session i = mgr.remove_session i ∧
    (List.lookup i mgr._sessions = none → mgr.remove_session i = mgr) := by
  constructor
  · show (⟨_⟩ : SessionManager) = ⟨_⟩
    congr 1
    simp [SessionManager.remove_session, List.filter_filter]
  · intro h
    show (⟨_⟩ : SessionManager) = mgr
    rw [filter_eq_of_lookup_none _ _ h]

/-- Witness for C8: removing the identity "nonexistent" from an empty
directory is a no-op. -/
theorem remove_session_idempotent_witness :
    SessionManager.init.remove_session "nonexistent" = SessionManager.init :=
  (remove_session_idempotent SessionManager.init "nonexistent").2 rfl

/-- As long as every call happens strictly within one refill interval of
`last_refill` (which never advances in that regime), a bucket with `tok`
tokens answers true exactly `min tok n` times and then false, over `n`
calls. -/
theorem consumeSeq_no_refill (c r tok : Int) (t0 : ℚ) (ts : List ℚ)
    (htok : 0 ≤ tok)
    (hw : ∀ t ∈ ts, t - t0 < (r : ℚ)) :
    (RateLimiter.consumeSeq ⟨c, r, tok, t0⟩ ts).1 =
      List.replicate (min tok.toNat ts.length) true ++
      List.replicate (ts.length - tok.toNat) false := by
  induction ts generalizing tok with
  | nil => simp [RateLimiter.consumeSeq]
  | cons t ts ih =>
    have hlt : t - t0 < (r : ℚ) := hw t (List.mem_cons_self t ts)
    have hw2 : ∀ u ∈ ts, u - t0 < (r : ℚ) := fun u hu =>
      hw u (List.mem_cons_of_mem t hu)
    have hcond : ¬ ((r : ℚ) ≤ t - t0) := not_le.mpr hlt
    by_cases hpos : 0 < tok
    · have step :
          RateLimiter.allow_request ⟨c, r, tok, t0⟩ t =
            (true, ⟨c, r, tok - 1, t0⟩) := by
        simp [RateLimiter.allow_request, hcond, hpos]
      simp only [RateLimiter.consumeSeq, step]
      rw [ih (tok - 1) (by omega) hw2]
      have h1 : tok.toNat = (tok - 1).toNat + 1 := by omega
      rw [h1]
      simp [List.replicate_succ, Nat.succ_min_succ, Nat.succ_sub_succ]
    · have htok0 : tok = 0 := by omega
      subst htok0
      have step :
          RateLimiter.allow_request ⟨c, r, 0, t0⟩ t =
            (false, ⟨c, r, 0, t0⟩) := by
        simp [RateLimiter.allow_request, hcond]
      simp only [RateLimiter.consumeSeq, step]
      rw [ih 0 le_rfl hw2]
      simp [List.replicate_succ]

/-- C2: a freshly created bucket with positive capacity answers true to
exactly the first `capacity` consecutive `allow_request` calls and false to
the next one, provided every call happens strictly less than one refill
interval after creation. -/
theorem fresh_bucket_allows_exactly_capacity (c r : Int) (t0 : ℚ)
    (ts : List ℚ) (hc : 0 < c) (hlen : ts.length = c.toNat + 1)
    (hw : ∀ t ∈ ts, t - t0 < (r : ℚ)) :
    ((RateLimiter.init c r t0).consumeSeq ts).1 =
      List.replicate c.toNat true ++ [false] := by
  have h := consumeSeq_no_refill c r c t0 ts (le_of_lt hc) hw
  have hmin : min c.toNat ts.length = c.toNat := by omega
  have hsub : ts.length - c.toNat = 1 := by omega
  rw [RateLimiter.init] at *
  rw [h, hmin, hsub, List.replicate_one]

/-- Witness for C2: a fresh bucket of capacity 2 with a 60-second interval,
hit at times 0, 1 and 2, answers true, true, false. -/
theorem fresh_bucket_allows_exactly_capacity_witness :
    ((RateLimiter.init 2 60 0).consumeSeq [0, 1, 2]).1 =
      List.replicate (Int.toNat 2) true ++ [false] :=
  fresh_bucket_allows_exactly_capacity 2 60 0 [0, 1, 2] (by norm_num) rfl
    (by
      intro t ht
      simp only [List.mem_cons, List.not_mem_nil, or_false] at ht
      rcases ht with rfl | rfl | rfl <;> norm_num)

/-- Case-split form of `RateLimiter.allow_request`: the two refill branches
followed by the two consume branches, with all record updates spelled
out. -/
theorem allow_request_eq (rl : RateLimiter) (now : ℚ) :
    rl.allow_request now =
      if (rl.refill_seconds : ℚ) ≤ now - rl.last_refill then
        (if 0 < min rl.capacity (rl.tokens +
              ⌊(now - rl.last_refill) / (rl.refill_seconds : ℚ)⌋ * rl.capacity) then
          (true, ⟨rl.capacity, rl.refill_seconds,
            min rl.capacity (rl.tokens +
              ⌊(now - rl.last_refill) / (rl.refill_seconds : ℚ)⌋ * rl.capacity) - 1,
            now⟩)
        else
          (false, ⟨rl.capacity, rl.refill_seconds,
            min rl.capacity (rl.tokens +
              ⌊(now - rl.last_refill) / (rl.refill_seconds : ℚ)⌋ * rl.capacity),
            now⟩))
      else
        (if 0 < rl.tokens then
          (true, ⟨rl.capacity, rl.refill_seconds, rl.tokens - 1, rl.last_refill⟩)
        else (false, rl)) := by
  unfold RateLimiter.allow_request
  by_cases hcond : (rl.refill_seconds : ℚ) ≤ now - rl.last_refill <;>
    simp [hcond]

/-- When at least one full interval has elapsed, the whole number of
elapsed intervals is at least 1. -/
theorem floor_steps_pos (r : Int) (e : ℚ) (hr : 0 < r) (he : (r : ℚ) ≤ e) :
    1 ≤ ⌊e / (r : ℚ)⌋ := by
  rw [Int.le_floor]
  have hr0 : (0 : ℚ) < (r : ℚ) := by exact_mod_cast hr
  rw [show ((1 : Int) : ℚ) = 1 by norm_num, le_div_iff₀ hr0, one_mul]
  exact he

/-- `allow_request` never changes the configured capacity or interval. -/
theorem allow_request_constants (rl : RateLimiter) (now : ℚ) :
    (rl.allow_request now).2.capacity = rl.capacity ∧
    (rl.allow_request now).2.refill_seconds = rl.refill_seconds := by
  rw [allow_request_eq]
  by_cases hcond : (rl.refill_seconds : ℚ) ≤ now - rl.last_refill
  · rw [if_pos hcond]; split_ifs <;> exact ⟨rfl, rfl⟩
  · rw [if_neg hcond]; split_ifs <;> exact ⟨rfl, rfl⟩

/-- One `allow_request` call keeps the token count within `[0, capacity]`
whenever it started there and the configuration is positive. -/
theorem allow_request_tokens_bounds (rl : RateLimiter) (now : ℚ)
    (hr : 0 < rl.refill_seconds) (hc : 0 < rl.capacity)
    (h0 : 0 ≤ rl.tokens) (h1 : rl.tokens ≤ rl.capacity) :
    0 ≤ (rl.allow_request now).2.tokens ∧
    (rl.allow_request now).2.tokens ≤ rl.capacity := by
  rw [allow_request_eq]
  by_cases hcond : (rl.refill_seconds : ℚ) ≤ now - rl.last_refill
  · rw [if_pos hcond]
    have hsteps : 1 ≤ ⌊(now - rl.last_refill) / (rl.refill_seconds : ℚ)⌋ :=
      floor_steps_pos rl.refill_seconds (now - rl.last_refill) hr hcond
    have hnn : 0 ≤ rl.tokens +
        ⌊(now - rl.last_refill) / (rl.refill_seconds : ℚ)⌋ * rl.capacity := by
      have hm : 0 ≤ ⌊(now - rl.last_refill) / (rl.refill_seconds : ℚ)⌋ *
          rl.capacity :=
        mul_nonneg (le_trans zero_le_one hsteps) (le_of_lt hc)
      linarith
    have hge : 0 ≤ min rl.capacity (rl.tokens +
        ⌊(now - rl.last_refill) / (rl.refill_seconds : ℚ)⌋ * rl.capacity) :=
      le_min (le_of_lt hc) hnn
    have hle : min rl.capacity (rl.tokens +
        ⌊(now - rl.last_refill) / (rl.refill_seconds : ℚ)⌋ * rl.capacity) ≤
        rl.capacity := min_le_left _ _
    split_ifs with h2
    · exact ⟨by dsimp only; linarith, by dsimp only; linarith⟩
    · exact ⟨hge, hle⟩
  · rw [if_neg hcond]
    split_ifs with h2
    · exact ⟨by dsimp only; linarith, by dsimp only; linarith⟩
    · exact ⟨h0, h1⟩

/-- C3: on every `allow_request` call with at least one full interval
elapsed, the bucket sets tokens to
`min(capacity, tokens + ⌊elapsed / interval⌋ * capacity)` and `last_refill`
to `now` (the consume step may then take one of those tokens); with
strictly less than one interval elapsed, `last_refill` is untouched and
tokens never increase — in particular a drained bucket is denied with no
state change at all. -/
theorem refill_step_exact (rl : RateLimiter) (now : ℚ)
    (_hr : 0 < rl.refill_seconds) :
    ((rl.refill_seconds : ℚ) ≤ now - rl.last_refill →
      (rl.allow_request now).2.last_refill = now ∧
      rl.allow_request now =
        (if 0 < min rl.capacity (rl.tokens +
              ⌊(now - rl.last_refill) / (rl.refill_seconds : ℚ)⌋ * rl.capacity) then
          (true, ⟨rl.capacity, rl.refill_seconds,
            min rl.capacity (rl.tokens +
              ⌊(now - rl.last_refill) / (rl.refill_seconds : ℚ)⌋ * rl.capacity) - 1,
            now⟩)
        else
          (false, ⟨rl.capacity, rl.refill_seconds,
            min rl.capacity (rl.tokens +
              ⌊(now - rl.last_refill) / (rl.refill_seconds : ℚ)⌋ * rl.capacity),
            now⟩))) ∧
    (now - rl.last_refill < (rl.refill_seconds : ℚ) →
      (rl.allow_request now).2.last_refill = rl.last_refill ∧
      (rl.allow_request now).2.tokens ≤ rl.tokens ∧
      (rl.tokens ≤ 0 → rl.allow_request now = (false, rl))) := by
  constructor
  · intro hcond
    rw [allow_request_eq, if_pos hcond]
    refine ⟨?_, rfl⟩
    split_ifs <;> rfl
  · intro hlt
    have hcond : ¬ ((rl.refill_seconds : ℚ) ≤ now - rl.last_refill) :=
      not_le.mpr hlt
    rw [allow_request_eq, if_neg hcond]
    split_ifs with h2
    · exact ⟨rfl, by dsimp only; omega, fun h0 => absurd h2 (by omega)⟩
    · exact ⟨rfl, le_rfl, fun _ => rfl⟩

/-- Witness for C3: a drained bucket hit one full interval late advances
its `last_refill` to the call instant. -/
theorem refill_step_exact_witness :
    ((⟨5, 60, 0, 0⟩ : RateLimiter).allow_request 125).2.last_refill = 125 :=
  ((refill_step_exact ⟨5, 60, 0, 0⟩ 125 (by decide)).1 (by norm_num)).1

/-- C6: for positive capacity and interval, `0 ≤ tokens ≤ capacity` holds
after construction and is preserved by every `allow_request` call, at every
elapsed-time value. -/
theorem bucket_tokens_invariant (c r : Int) (t0 : ℚ) (rl : RateLimiter)
    (now : ℚ) (hc : 0 < c) (hrlc : 0 < rl.capacity)
    (hrlr : 0 < rl.refill_seconds)
    (h0 : 0 ≤ rl.tokens) (h1 : rl.tokens ≤ rl.capacity) :
    (0 ≤ (RateLimiter.init c r t0).tokens ∧
      (RateLimiter.init c r t0).tokens ≤ (RateLimiter.init c r t0).capacity) ∧
    (0 ≤ (rl.allow_request now).2.tokens ∧
      (rl.allow_request now).2.tokens ≤ (rl.allow_request now).2.capacity) := by
  refine ⟨⟨le_of_lt hc, le_rfl⟩, ?_⟩
  have hb := allow_request_tokens_bounds rl now hrlr hrlc h0 h1
  rw [(allow_request_constants rl now).1]
  exact hb

/-- Witness for C6: a capacity-5 bucket holding 3 tokens keeps its count in
`[0, 5]` across a call one second after its last refill. -/
theorem bucket_tokens_invariant_witness :
    (0 ≤ (RateLimiter.init 5 60 0).tokens ∧
      (RateLimiter.init 5 60 0).tokens ≤ (RateLimiter.init 5 60 0).capacity) ∧
    (0 ≤ ((⟨5, 60, 3, 0⟩ : RateLimiter).allow_request 1).2.tokens ∧
      ((⟨5, 60, 3, 0⟩ : RateLimiter).allow_request 1).2.tokens ≤
        ((⟨5, 60, 3, 0⟩ : RateLimiter).allow_request 1).2.capacity) :=
  bucket_tokens_invariant 5 60 0 ⟨5, 60, 3, 0⟩ 1 (by decide) (by decide)
    (by decide) (by decide) (by decide)

/-- A denied consume leaves the bucket bit-for-bit unchanged: under the
invariant `0 ≤ tokens` with positive configuration, a refill-eligible call
refills to full capacity and is therefore allowed, so a denial implies no
refill happened and no token was taken. -/
theorem rl_denied_pure (rl : RateLimiter) (now : ℚ)
    (hc : 0 < rl.capacity) (hr : 0 < rl.refill_seconds)
    (h0 : 0 ≤ rl.tokens)
    (hden : (rl.allow_request now).1 = false) :
    rl.allow_request now = (false, rl) := by
  rw [allow_request_eq] at hden ⊢
  by_cases hcond : (rl.refill_seconds : ℚ) ≤ now - rl.last_refill
  · exfalso
    rw [if_pos hcond] at hden
    have hsteps : 1 ≤ ⌊(now - rl.last_refill) / (rl.refill_seconds : ℚ)⌋ :=
      floor_steps_pos rl.refill_seconds (now - rl.last_refill) hr hcond
    have hcs : rl.capacity ≤
        ⌊(now - rl.last_refill) / (rl.refill_seconds : ℚ)⌋ * rl.capacity :=
      le_mul_of_one_le_left (le_of_lt hc) hsteps
    have hmin : 0 < min rl.capacity (rl.tokens +
        ⌊(now - rl.last_refill) / (rl.refill_seconds : ℚ)⌋ * rl.capacity) :=
      lt_min hc (by linarith)
    rw [if_pos hmin] at hden
    exact Bool.noConfusion hden
  · rw [if_neg hcond] at hden ⊢
    by_cases h2 : 0 < rl.tokens
    · rw [if_pos h2] at hden
      exact absurd hden Bool.noConfusion
    · rw [if_neg h2]

/-- C10: when a request is denied, the call is observationally a pure read:
the bucket's tokens and `last_refill` and the session's `usage_count` are
exactly as before — the updated session equals the old one. Assumes the
reachable-state invariant `0 ≤ tokens` and a positive configuration. -/
theorem denied_request_is_pure (s : SessionInfo) (now : ℚ)
    (hc : 0 < s.rate_limiter.capacity)
    (hr : 0 < s.rate_limiter.refill_seconds)
    (h0 : 0 ≤ s.rate_limiter.tokens)
    (hden : (s.allow_request now).1 = false) :
    s.allow_request now = (false, s) := by
  have hrl : (s.rate_limiter.allow_request now).1 = false := by
    by_contra hne
    have htrue : (s.rate_limiter.allow_request now).1 = true := by
      cases h : (s.rate_limiter.allow_request now).1
      · exact absurd h hne
      · rfl
    simp [SessionInfo.allow_request, htrue] at hden
  have h2 := rl_denied_pure s.rate_limiter now hc hr h0 hrl
  simp [SessionInfo.allow_request, hrl, h2]

/-- Witness for C10: a drained capacity-5 bucket queried one second after
its last refill denies the request and the whole session state, usage
count included, is untouched. -/
theorem denied_request_is_pure_witness :
    SessionInfo.allow_request
      { client_id := "x", created_at := 0, expires_in := 3600,
        rate_limiter := ⟨5, 60, 0, 0⟩, usage_count := 5 } 1 =
      (false,
        { client_id := "x", created_at := 0, expires_in := 3600,
          rate_limiter := ⟨5, 60, 0, 0⟩, usage_count := 5 }) :=
  denied_request_is_pure _ 1 (by decide) (by decide) (by decide)
    (by norm_num [SessionInfo.allow_request, RateLimiter.allow_request])

/-- Counterexample for C7: malformed rate-limit configuration is NOT
rejected eagerly. `Settings.__init__` validates only `SECRET_KEY`, and
`RateLimiter.__init__` with capacity 0 succeeds, producing a concrete
zero-capacity bucket whose requests are then processed (and denied) at
request time — exactly what the spec-modelled fail-fast constructor
refuses. -/
theorem no_fail_fast_counterexample :
    Settings.init "" = Except.error "SECRET_KEY environment variable is required" ∧
    Settings.init "k" = Except.ok defaultSettings ∧
    RateLimiter.init 0 60 0 =
      { capacity := 0, refill_seconds := 60, tokens := 0, last_refill := 0 } ∧
    RateLimiter.init_checked 0 60 0 = none ∧
    (RateLimiter.init 0 60 0).allow_request 1 = (false, RateLimiter.init 0 60 0) := by
  refine ⟨rfl, rfl, rfl, by norm_num [RateLimiter.init_checked], ?_⟩
  norm_num [RateLimiter.allow_request, RateLimiter.init]

/-- C7 as amended: the code never rejects malformed rate-limit
configuration. Bucket construction with a non-positive capacity succeeds
(while the spec-modelled fail-fast constructor refuses it), and the
resulting bucket is tolerated at request time: every request is simply
denied. -/
theorem malformed_config_tolerated (c r : Int) (t0 now : ℚ)
    (hc : c ≤ 0) (_hr : 0 < r) :
    RateLimiter.init_checked c r t0 = none ∧
    RateLimiter.init c r t0 =
      { capacity := c, refill_seconds := r, tokens := c, last_refill := t0 } ∧
    ((RateLimiter.init c r t0).allow_request now).1 = false := by
  refine ⟨?_, rfl, ?_⟩
  · simp only [RateLimiter.init_checked]
    rw [if_neg (by omega : ¬(0 < c ∧ 0 < r))]
  · rw [allow_request_eq]
    dsimp only [RateLimiter.init]
    by_cases hcond : (r : ℚ) ≤ now - t0
    · rw [if_pos hcond]
      have hle : min c (c + ⌊(now - t0) / (r : ℚ)⌋ * c) ≤ c :=
        min_le_left _ _
      rw [if_neg (not_lt.mpr (by linarith))]
    · rw [if_neg hcond, if_neg (not_lt.mpr hc)]

/-- Witness for C7 (amended): capacity 0 with a 60-second interval is
accepted by the real constructor, refused by the fail-fast model, and the
request at time 0 is denied. -/
theorem malformed_config_tolerated_witness :
    RateLimiter.init_checked 0 60 0 = none ∧
    RateLimiter.init 0 60 0 =
      { capacity := 0, refill_seconds := 60, tokens := 0, last_refill := 0 } ∧
    ((RateLimiter.init 0 60 0).allow_request 0).1 = false :=
  malformed_config_tolerated 0 60 0 0 (by decide) (by decide)

/-- Appending a fresh entry for another key does not change a lookup. -/
theorem lookup_append_single {β : Type} (l : List (String × β)) (a b : String)
    (v : β) (h : b ≠ a) :
    List.lookup b (l ++ [(a, v)]) = List.lookup b l := by
  have hb : (b == a) = false := beq_eq_false_iff_ne.mpr h
  induction l with
  | nil => simp [List.lookup, hb]
  | cons p l ih =>
    rw [List.cons_append, List.lookup, List.lookup]
    cases hpb : b == p.1 with
    | false => exact ih
    | true => rfl

/-- Replacing the value stored under another key does not change a
lookup. -/
theorem lookup_map_set_ne {β : Type} (l : List (String × β)) (a b : String)
    (s : β) (h : b ≠ a) :
    List.lookup b (l.map (fun p => if p.1 == a then (p.1, s) else p)) =
      List.lookup b l := by
  induction l with
  | nil => rfl
  | cons p l ih =>
    rw [List.map_cons]
    by_cases hpa : p.1 = a
    · rw [if_pos (beq_iff_eq.mpr hpa)]
      have hbp : (b == p.1) = false :=
        beq_eq_false_iff_ne.mpr (by rw [hpa]; exact h)
      rw [List.lookup, List.lookup, hbp]
      exact ih
    · rw [if_neg (by simp [hpa])]
      rw [List.lookup, List.lookup]
      cases hpb : b == p.1 with
      | false => exact ih
      | true => rfl

/-- Removing another key from the directory does not change a lookup. -/
theorem lookup_remove_ne {β : Type} (l : List (String × β)) (a b : String)
    (h : b ≠ a) :
    List.lookup b (l.filter (fun p => !(p.1 == a))) = List.lookup b l := by
  induction l with
  | nil => rfl
  | cons p l ih =>
    by_cases hpa : p.1 = a
    · rw [List.filter_cons,
        show (!(p.1 == a)) = false by simp [beq_iff_eq.mpr hpa], if_neg (by simp)]
      have hbp : (b == p.1) = false :=
        beq_eq_false_iff_ne.mpr (by rw [hpa]; exact h)
      rw [List.lookup, hbp]
      exact ih
    · rw [List.filter_cons,
        show (!(p.1 == a)) = true by simp [beq_eq_false_iff_ne.mpr hpa],
        if_pos rfl]
      rw [List.lookup, List.lookup]
      cases hpb : b == p.1 with
      | false => exact ih
      | true => rfl

/-- One `analyze_sector` call for identity `A` leaves the directory entry of every
other identity `B` untouched. -/
theorem gate_frame_single (settings : Settings) (mgr : SessionManager)
    (A B : String) (w m : ℚ) (h : A ≠ B) :
    List.lookup B ((analyze_sector settings mgr A w m).2)._sessions =
      List.lookup B mgr._sessions := by
  have hBA : B ≠ A := Ne.symm h
  simp only [analyze_sector, SessionManager.get_session]
  cases hA : List.lookup A mgr._sessions with
  | some s =>
    simp only []
    split_ifs with hexp har
    · exact lookup_remove_ne mgr._sessions A B hBA
    · exact lookup_map_set_ne mgr._sessions A B _ hBA
    · exact lookup_map_set_ne mgr._sessions A B _ hBA
  | none =>
    simp only []
    split_ifs with hexp har
    · exact (lookup_remove_ne _ A B hBA).trans
        (lookup_append_single mgr._sessions A B _ hBA)
    · exact (lookup_map_set_ne _ A B _ hBA).trans
        (lookup_append_single mgr._sessions A B _ hBA)
    · exact (lookup_map_set_ne _ A B _ hBA).trans
        (lookup_append_single mgr._sessions A B _ hBA)

/-- C9: per-identity isolation. Any sequence of `analyze_sector` calls for identity
`A` — in particular one that drains A's bucket to zero — leaves identity
B's directory entry (hence its bucket tokens, last refill instant, usage
count and creation time) exactly as it was, so the outcome of B's
`allow_request` at any instant is unchanged. -/
theorem gate_per_identity_isolation (settings : Settings)
    (mgr : SessionManager) (A B : String) (ts : List (ℚ × ℚ)) (h : A ≠ B) :
    List.lookup B ((analyzeSeq settings mgr A ts).2)._sessions =
      List.lookup B mgr._sessions ∧
    ∀ t : ℚ,
      Option.map (fun s => (s.allow_request t).1)
        (List.lookup B ((analyzeSeq settings mgr A ts).2)._sessions) =
      Option.map (fun s => (s.allow_request t).1)
        (List.lookup B mgr._sessions) := by
  have key : ∀ mgr0 : SessionManager,
      List.lookup B ((analyzeSeq settings mgr0 A ts).2)._sessions =
        List.lookup B mgr0._sessions := by
    induction ts with
    | nil => intro mgr0; rfl
    | cons t ts ih =>
      intro mgr0
      simp only [analyzeSeq]
      rw [ih ((analyze_sector settings mgr0 A t.1 t.2).2)]
      exact gate_frame_single settings mgr0 A B t.1 t.2 h
  exact ⟨key mgr, fun t => by rw [key mgr]⟩

/-- Witness for C9: an `analyze_sector` call for "a" on the empty directory leaves
the (absent) entry of "b" absent. -/
theorem gate_per_identity_isolation_witness :
    List.lookup "b"
        ((analyzeSeq defaultSettings SessionManager.init "a" [(0, 0)]).2)._sessions =
      List.lookup "b" SessionManager.init._sessions :=
  (gate_per_identity_isolation defaultSettings SessionManager.init "a" "b"
    [(0, 0)] (by decide)).1

/-- C1: the admission decision is computed in this order: the directory
returns the existing session or creates one; if that session is expired it
is removed from the directory and the verdict is `SessionExpired` (and a
subsequent directory lookup — hence the directory count — no longer
includes that identity); otherwise if `allow_request` returns false the
verdict is `RateLimited`; otherwise the verdict is `Allowed`. -/
theorem gate_decision_order (settings : Settings) (mgr : SessionManager)
    (identity : String) (w m : ℚ) :
    ((SessionManager.get_session settings mgr identity w m).1.is_expired w =
        true →
      analyze_sector settings mgr identity w m =
        (Decision.SessionExpired,
          (SessionManager.get_session settings mgr identity w
            m).2.remove_session identity) ∧
      List.lookup identity
        ((analyze_sector settings mgr identity w m).2)._sessions = none) ∧
    ((SessionManager.get_session settings mgr identity w m).1.is_expired w =
        false →
      ((SessionManager.get_session settings mgr identity w m).1.allow_request
          m).1 = false →
      analyze_sector settings mgr identity w m =
        (Decision.RateLimited,
          (SessionManager.get_session settings mgr identity w m).2.set_session
            identity
            ((SessionManager.get_session settings mgr identity w
              m).1.allow_request m).2)) ∧
    ((SessionManager.get_session settings mgr identity w m).1.is_expired w =
        false →
      ((SessionManager.get_session settings mgr identity w m).1.allow_request
          m).1 = true →
      analyze_sector settings mgr identity w m =
        (Decision.Allowed,
          (SessionManager.get_session settings mgr identity w m).2.set_session
            identity
            ((SessionManager.get_session settings mgr identity w
              m).1.allow_request m).2)) := by
  refine ⟨fun hexp => ?_, fun hexp hden => ?_, fun hexp hall => ?_⟩
  · have heq : analyze_sector settings mgr identity w m =
        (Decision.SessionExpired,
          (SessionManager.get_session settings mgr identity w
            m).2.remove_session identity) := by
      simp only [analyze_sector]
      rw [if_pos hexp]
    refine ⟨heq, ?_⟩
    rw [heq]
    exact lookup_filter_self _ identity
  · simp only [analyze_sector]
    rw [if_neg (by simp [hexp]), if_neg (by simp [hden])]
  · simp only [analyze_sector]
    rw [if_neg (by simp [hexp]), if_pos hall]

/-- Witness for C1: the spec's "bob" scenario — a session with TTL 3600
created at wall-clock 0, gated at wall-clock 3601, yields
`SessionExpired` and the directory no longer contains "bob". -/
theorem gate_decision_order_witness :
    analyze_sector defaultSettings
        ⟨[("bob", ⟨"bob", 0, 3600, ⟨5, 60, 5, 0⟩, 0⟩)]⟩ "bob" 3601 3601 =
      (Decision.SessionExpired,
        SessionManager.remove_session
          ⟨[("bob", ⟨"bob", 0, 3600, ⟨5, 60, 5, 0⟩, 0⟩)]⟩ "bob") ∧
    List.lookup "bob"
      ((analyze_sector defaultSettings
          ⟨[("bob", ⟨"bob", 0, 3600, ⟨5, 60, 5, 0⟩, 0⟩)]⟩
          "bob" 3601 3601).2)._sessions = none :=
  (gate_decision_order defaultSettings
      ⟨[("bob", ⟨"bob", 0, 3600, ⟨5, 60, 5, 0⟩, 0⟩)]⟩ "bob" 3601 3601).1
    (by norm_num [SessionManager.get_session, List.lookup,
      SessionInfo.is_expired])

end TradeAPI
